import Mathlib

/-!
Verification of `machine/asyncio/plugins/decorators.py`: a decorator-based
metadata-attachment mechanism for a chat-bot plugin system.  Decorators
attach a `Metadata` record to a callable (event types to process, compiled
regex triggers, required settings) or register the callable on a shared
event emitter.

The embedding models a Python function object as a `Func`: an object
identity (`id`) together with its writable `metadata` attribute (absent on
an undecorated function).  Each decorator from the source becomes a pure
transformer on `Func`; the two decorators that can raise (`listen_to`,
`respond_to`, via `re.compile`) additionally return an `Option PyError`
describing the exception raised by the call, with the returned `Func`
reflecting the mutations performed before the exception.
-/

namespace SlackMachine

/-- A compiled regular expression, as produced by `re.compile`: it records
the source text (the `pattern` attribute of a Python `re.Pattern`) and the
flags it was compiled with. -/
structure RePattern where
  pattern : String
  flags : Nat
  deriving DecidableEq, Repr

/-- The numeric value of Python's `re.IGNORECASE` flag, the default value
of the `flags` parameter of `listen_to` and `respond_to`. -/
def IGNORECASE : Nat := 2

/-- A Python exception relevant to this module: `re.error`, raised by
`re.compile` on a syntactically invalid pattern. -/
inductive PyError where
  | re_error : String → PyError
  deriving DecidableEq, Repr

/-- Modelled from the spec: Python's `re` module is not part of this
repository.  The spec's only requirement is that compilation fails exactly
on syntactically invalid patterns; syntactic validity is modelled by the
representative class of errors the spec itself uses (`"("`): group
parentheses must balance, honouring backslash escapes, and a pattern must
not end in a dangling backslash.  `d` is the current group nesting depth. -/
def parenScan : List Char → Nat → Bool
  | [], 0 => true
  | [], _ + 1 => false
  | ['\\'], _ => false
  | '\\' :: _ :: rest, d => parenScan rest d
  | '(' :: rest, d => parenScan rest (d + 1)
  | ')' :: _, 0 => false
  | ')' :: rest, d + 1 => parenScan rest d
  | _ :: rest, d => parenScan rest d

/-- Modelled from the spec: whether a regex pattern is syntactically
valid, i.e. whether `re.compile` accepts it. -/
def isValidRegex (r : String) : Bool := parenScan r.data 0

/-- Modelled from the spec: `re.compile(regex, flags)` returns a compiled
pattern whose source text equals `regex` when the pattern is syntactically
valid, and raises `re.error` otherwise. -/
def reCompile (regex : String) (flags : Nat) : Except PyError RePattern :=
  if isValidRegex regex then Except.ok ⟨regex, flags⟩
  else Except.error (PyError.re_error regex)

/-- `PluginActions` from the source: the three ordered trigger lists. -/
structure PluginActions where
  process : List String := []
  listen_to : List RePattern := []
  respond_to : List RePattern := []
  deriving DecidableEq, Repr

/-- `Metadata` from the source: one `PluginActions` plus the ordered list
of required setting names. -/
structure Metadata where
  plugin_actions : PluginActions := {}
  required_settings : List String := []
  deriving DecidableEq, Repr

/-- A Python function object (or class, for `required_settings`), reduced
to what this module reads and writes: its object identity and its
`metadata` attribute, which is `none` until a decorator attaches one. -/
structure Func where
  id : Nat
  metadata : Option Metadata := none
  deriving DecidableEq, Repr

/-- `getattr(f, "metadata", Metadata())`: the function's metadata if it
has any, a fresh default `Metadata` otherwise. -/
def metaOf (f : Func) : Metadata := f.metadata.getD {}

/-- The inner decorator of `process`: sets `f.metadata` to
`getattr(f, "metadata", Metadata())`, appends the event type to
`metadata.plugin_actions.process`, and returns `f`. -/
def process_decorator (slack_event_type : String) (f : Func) : Func :=
  let md := metaOf f
  { f with metadata := some { md with plugin_actions :=
      { md.plugin_actions with
        process := md.plugin_actions.process ++ [slack_event_type] } } }

/-- `process(slack_event_type)`: returns `process_decorator`. -/
def process (slack_event_type : String) : Func → Func :=
  process_decorator slack_event_type

/-- The inner decorator of `listen_to`: sets `f.metadata` to
`getattr(f, "metadata", Metadata())`, then evaluates
`re.compile(regex, flags)` and appends the result to
`metadata.plugin_actions.listen_to`.  If compilation raises, the append
does not happen but the attribute assignment already has: the pair holds
the state of `f` after the call and the exception, if any. -/
def listen_to_decorator (regex : String) (flags : Nat) (f : Func) :
    Func × Option PyError :=
  let md := metaOf f
  let f' : Func := { f with metadata := some md }
  match reCompile regex flags with
  | Except.error e => (f', some e)
  | Except.ok p =>
      ({ f' with metadata := some { md with plugin_actions :=
          { md.plugin_actions with
            listen_to := md.plugin_actions.listen_to ++ [p] } } }, none)

/-- `listen_to(regex, flags=re.IGNORECASE)`: returns
`listen_to_decorator`; no compilation happens at factory-call time. -/
def listen_to (regex : String) (flags : Nat := IGNORECASE) :
    Func → Func × Option PyError :=
  listen_to_decorator regex flags

/-- The inner decorator of `respond_to`: identical to
`listen_to_decorator` except that it appends to
`metadata.plugin_actions.respond_to`. -/
def respond_to_decorator (regex : String) (flags : Nat) (f : Func) :
    Func × Option PyError :=
  let md := metaOf f
  let f' : Func := { f with metadata := some md }
  match reCompile regex flags with
  | Except.error e => (f', some e)
  | Except.ok p =>
      ({ f' with metadata := some { md with plugin_actions :=
          { md.plugin_actions with
            respond_to := md.plugin_actions.respond_to ++ [p] } } }, none)

/-- `respond_to(regex, flags=re.IGNORECASE)`: returns
`respond_to_decorator`. -/
def respond_to (regex : String) (flags : Nat := IGNORECASE) :
    Func → Func × Option PyError :=
  respond_to_decorator regex flags

/-- The state of the process-wide emitter `ee`, modelled from the spec:
the `pyee.asyncio.AsyncIOEventEmitter` library is not part of this
repository; the spec describes a mapping from event-name string to an
ordered set of registered callables, entries added only, never removed.
Represented as the ordered list of (event name, callable identity)
registrations. -/
abbrev Emitter := List (String × Nat)

/-- Modelled from the spec: `ee.add_listener(event, f)` registers `f` for
`event`; as the registered callables for an event form an ordered set, a
registration already present is left in place, a new one is appended. -/
def add_listener (event : String) (fid : Nat) (em : Emitter) : Emitter :=
  if (event, fid) ∈ em then em else em ++ [(event, fid)]

/-- The inner decorator of `on`: calls `ee.add_listener(event, f)` and
returns `f`; the emitter state is threaded explicitly. -/
def on_decorator (event : String) (f : Func) (em : Emitter) :
    Emitter × Func :=
  (add_listener event f.id em, f)

/-- `on(event)`: returns `on_decorator`. -/
def «on» (event : String) : Func → Emitter → Emitter × Func :=
  on_decorator event

/-- The runtime value passed to `required_settings`, whose annotation is
`Union[list[str], str]` but which Python does not enforce: a list of
strings, a single string, or any other value (for example a tuple of
strings), which matches neither `isinstance` branch. -/
inductive SettingsArg where
  | pylist : List String → SettingsArg
  | pystr : String → SettingsArg
  | pyother : List String → SettingsArg
  deriving DecidableEq, Repr

/-- The inner decorator of `required_settings`: sets
`f_or_cls.metadata` to `getattr(f_or_cls, "metadata", Metadata())`, then
extends `metadata.required_settings` with the settings if they are a list,
appends them if they are a single string, and otherwise does nothing
further, returning `f_or_cls`. -/
def required_settings_decorator (settings : SettingsArg) (f_or_cls : Func) :
    Func :=
  let md := metaOf f_or_cls
  let rs : List String :=
    match settings with
    | SettingsArg.pylist l => md.required_settings ++ l
    | SettingsArg.pystr s => md.required_settings ++ [s]
    | SettingsArg.pyother _ => md.required_settings
  { f_or_cls with metadata := some { md with required_settings := rs } }

/-- `required_settings(settings)`: returns `required_settings_decorator`. -/
def required_settings (settings : SettingsArg) : Func → Func :=
  required_settings_decorator settings

/-- `new` extends `old`: every list of `new` is the corresponding list of
`old` with some suffix appended.  This is the observable content of "the
decorator mutates the one existing `Metadata` instance in place rather
than replacing it". -/
def MetadataExtends (old new : Metadata) : Prop :=
  (∃ t, new.plugin_actions.process = old.plugin_actions.process ++ t) ∧
  (∃ t, new.plugin_actions.listen_to = old.plugin_actions.listen_to ++ t) ∧
  (∃ t, new.plugin_actions.respond_to = old.plugin_actions.respond_to ++ t) ∧
  (∃ t, new.required_settings = old.required_settings ++ t)

/-- C1: applying the decorator returned by `process(e)` to any function
yields a function whose `metadata.plugin_actions.process` list ends with
`e` with the prior entries preserved in order; applying
`process("message")` twice to a fresh function yields the process list
`["message", "message"]` with no deduplication; any string `e` is
accepted without validation (the property holds for every `e`). -/
theorem process_appends_event_type (e : String) (f : Func) :
    ((process e f).metadata.isSome = true)
    ∧ ((metaOf (process e f)).plugin_actions.process
        = (metaOf f).plugin_actions.process ++ [e])
    ∧ ((metaOf (process "message" (process "message" ⟨0, none⟩))).plugin_actions.process
        = ["message", "message"]) :=
  ⟨rfl, rfl, rfl⟩

/-- C2: for every syntactically valid regex `r`, the decorator returned by
`listen_to(r)` with flags at their default raises nothing and appends to
the target's `listen_to` list exactly the pattern compiled from source
text `r` with the `IGNORECASE` flag; `respond_to` behaves the same on the
`respond_to` list. -/
theorem listen_to_appends_compiled_pattern (r : String) (f : Func)
    (h : isValidRegex r = true) :
    ((listen_to r IGNORECASE f).2 = none
      ∧ (metaOf (listen_to r IGNORECASE f).1).plugin_actions.listen_to
          = (metaOf f).plugin_actions.listen_to ++ [⟨r, IGNORECASE⟩])
    ∧ ((respond_to r IGNORECASE f).2 = none
      ∧ (metaOf (respond_to r IGNORECASE f).1).plugin_actions.respond_to
          = (metaOf f).plugin_actions.respond_to ++ [⟨r, IGNORECASE⟩]) := by
  have hc : reCompile r IGNORECASE = Except.ok ⟨r, IGNORECASE⟩ := by
    simp [reCompile, h]
  simp [listen_to, respond_to, listen_to_decorator, respond_to_decorator, hc, metaOf]

/-- C2 witness at `r := "hello"` on an undecorated function. -/
theorem listen_to_appends_compiled_pattern_witness :
    (listen_to "hello" IGNORECASE ⟨0, none⟩).2 = none
    ∧ (metaOf (listen_to "hello" IGNORECASE ⟨0, none⟩).1).plugin_actions.listen_to
        = [⟨"hello", IGNORECASE⟩] :=
  ⟨(listen_to_appends_compiled_pattern "hello" ⟨0, none⟩ rfl).1.1,
   (listen_to_appends_compiled_pattern "hello" ⟨0, none⟩ rfl).1.2⟩

/-- C3: the decorators returned by `listen_to` and `respond_to` raise an
error exactly when the pattern is syntactically invalid, and they raise it
when the decorator is applied to the target, not when the factory is
called: the factories merely return the inner decorator unevaluated (the
other operations, `process`, `on` and `required_settings`, are total
functions of the embedding with no error channel at all, and
`required_settings` performs no validation). -/
theorem error_iff_invalid_pattern (r : String) (flags : Nat) (f : Func) :
    ((listen_to_decorator r flags f).2.isSome = true ↔ isValidRegex r = false)
    ∧ ((respond_to_decorator r flags f).2.isSome = true ↔ isValidRegex r = false)
    ∧ (listen_to r flags = listen_to_decorator r flags)
    ∧ (respond_to r flags = respond_to_decorator r flags) := by
  refine ⟨?_, ?_, rfl, rfl⟩
  · unfold listen_to_decorator reCompile
    cases hv : isValidRegex r <;> simp [hv]
  · unfold respond_to_decorator reCompile
    cases hv : isValidRegex r <;> simp [hv]

/-- C4 counterexample: the claim quantifies over every function `f`, but
for a function that already carries a `listen_to` pattern, applying
`respond_to("hello")` then `listen_to("bye")` does not leave `listen_to`
holding exactly the one pattern compiled from `"bye"`. -/
theorem listen_respond_exactly_one_counterexample :
    ¬ ((metaOf ((listen_to "bye" IGNORECASE
          ((respond_to "hello" IGNORECASE
            ⟨0, some ⟨⟨[], [⟨"x", IGNORECASE⟩], []⟩, []⟩⟩).1)).1)).plugin_actions.listen_to
        = [⟨"bye", IGNORECASE⟩]) := by decide

/-- C4 amended: for every function with no metadata attached yet, applying
`respond_to("hello")` and `listen_to("bye")` in either order results in
`listen_to` holding exactly the pattern compiled from `"bye"`,
`respond_to` holding exactly the pattern compiled from `"hello"`, and an
empty `process` list; and for every function whatsoever, each of the two
decorators mutates only its own list, leaving the other list and the
`process` list unchanged. -/
theorem listen_respond_disjoint_lists (f g : Func) (h : f.metadata = none) :
    ((metaOf ((listen_to "bye" IGNORECASE
        ((respond_to "hello" IGNORECASE f).1)).1)).plugin_actions
      = ⟨[], [⟨"bye", IGNORECASE⟩], [⟨"hello", IGNORECASE⟩]⟩)
    ∧ ((metaOf ((respond_to "hello" IGNORECASE
        ((listen_to "bye" IGNORECASE f).1)).1)).plugin_actions
      = ⟨[], [⟨"bye", IGNORECASE⟩], [⟨"hello", IGNORECASE⟩]⟩)
    ∧ ((metaOf (listen_to "bye" IGNORECASE g).1).plugin_actions.respond_to
        = (metaOf g).plugin_actions.respond_to)
    ∧ ((metaOf (listen_to "bye" IGNORECASE g).1).plugin_actions.process
        = (metaOf g).plugin_actions.process)
    ∧ ((metaOf (respond_to "hello" IGNORECASE g).1).plugin_actions.listen_to
        = (metaOf g).plugin_actions.listen_to)
    ∧ ((metaOf (respond_to "hello" IGNORECASE g).1).plugin_actions.process
        = (metaOf g).plugin_actions.process) := by
  have hb : reCompile "bye" IGNORECASE = Except.ok ⟨"bye", IGNORECASE⟩ := rfl
  have hh : reCompile "hello" IGNORECASE = Except.ok ⟨"hello", IGNORECASE⟩ := rfl
  obtain ⟨fid, fmd⟩ := f
  simp only at h
  subst h
  refine ⟨rfl, rfl, ?_, ?_, ?_, ?_⟩ <;>
    simp [listen_to, respond_to, listen_to_decorator, respond_to_decorator,
      hb, hh, metaOf]

/-- C4 witness: the amended claim at an undecorated concrete function. -/
theorem listen_respond_disjoint_lists_witness :
    (metaOf ((listen_to "bye" IGNORECASE
        ((respond_to "hello" IGNORECASE ⟨0, none⟩).1)).1)).plugin_actions
      = ⟨[], [⟨"bye", IGNORECASE⟩], [⟨"hello", IGNORECASE⟩]⟩ :=
  (listen_respond_disjoint_lists ⟨0, none⟩ ⟨0, none⟩ rfl).1

/-- C5: `required_settings` with a list of strings appends each name in
order to the end of `metadata.required_settings`, with a single string it
appends that one name, duplicates permitted, prior entries preserved; in
particular `required_settings(["A","B"])` then `required_settings("C")`
on a fresh target yields `["A", "B", "C"]`. -/
theorem required_settings_appends_in_order (f : Func) (l : List String) (s : String) :
    ((metaOf (required_settings (SettingsArg.pylist l) f)).required_settings
        = (metaOf f).required_settings ++ l)
    ∧ ((metaOf (required_settings (SettingsArg.pystr s) f)).required_settings
        = (metaOf f).required_settings ++ [s])
    ∧ ((metaOf (required_settings (SettingsArg.pystr "C")
          (required_settings (SettingsArg.pylist ["A", "B"]) ⟨0, none⟩))).required_settings
        = ["A", "B", "C"]) :=
  ⟨rfl, rfl, rfl⟩

/-- C6: applying the decorator returned by `on(n)` registers the target
for event `n` on the shared emitter and returns the very function object
it received, unmodified: no metadata is attached and no attribute is
changed. -/
theorem on_registers_and_returns_target (n : String) (f : Func) (em : Emitter) :
    ((«on» n f em).2 = f)
    ∧ ((n, f.id) ∈ («on» n f em).1) := by
  refine ⟨rfl, ?_⟩
  unfold «on» on_decorator add_listener
  by_cases hm : (n, f.id) ∈ em <;> simp [hm]

/-- C7 counterexample: applying `on("shutdown")` twice to the same
callable leaves a single registration, not two — the registered callables
for an event form an ordered set, so re-registering the same callable for
the same event does not add another entry. -/
theorem on_same_callable_twice_counterexample :
    ((«on» "shutdown" ⟨7, none⟩ ((«on» "shutdown" ⟨7, none⟩ []).1)).1)
      = [("shutdown", 7)] := by decide

/-- C7 amended: registrations on the shared registry only accumulate:
applying `on` with an event name and a callable not yet registered for
that name appends exactly one registration at the end; re-registering an
already-registered callable for the same event leaves the registry
unchanged in place (no duplicate entry); no operation ever removes a
registration (the prior registry is always a prefix of the new one); and
applying `on("shutdown")` to two distinct functions leaves both
registered for `"shutdown"` in registration order. -/
theorem on_accumulates_registrations (n : String) (f : Func) (em : Emitter)
    (h : (n, f.id) ∉ em) :
    ((«on» n f em).1 = em ++ [(n, f.id)])
    ∧ (∀ n2 f2 em2, ((n2, Func.id f2) ∈ em2) → («on» n2 f2 em2).1 = em2)
    ∧ (∀ n2 f2 em2, em2 <+: («on» n2 f2 em2).1)
    ∧ ((«on» "shutdown" ⟨2, none⟩ ((«on» "shutdown" ⟨1, none⟩ []).1)).1
        = [("shutdown", 1), ("shutdown", 2)]) := by
  refine ⟨?_, ?_, ?_, by decide⟩
  · unfold «on» on_decorator add_listener
    simp [h]
  · intro n2 f2 em2 hm
    unfold «on» on_decorator add_listener
    simp [hm]
  · intro n2 f2 em2
    unfold «on» on_decorator add_listener
    by_cases hm : (n2, f2.id) ∈ em2
    · simp [hm]
    · simp only [hm, if_false]
      exact List.prefix_append em2 _

/-- C7 witness: registering a fresh callable appends its registration. -/
theorem on_accumulates_registrations_witness :
    («on» "shutdown" ⟨1, none⟩ []).1 = [("shutdown", 1)] :=
  (on_accumulates_registrations "shutdown" ⟨1, none⟩ [] (by decide)).1

/-- C8: every metadata-attaching decorator (`process`, `listen_to`,
`respond_to`, `required_settings`) returns the same target object it
received (same identity, only the `metadata` attribute touched), leaves
the target with a `metadata` attribute attached (created fresh on first
decoration), and only extends the lists of the one existing `Metadata`
rather than replacing it, so stacked decorators accumulate into the
single shared `Metadata` in application order. -/
theorem decorators_share_single_metadata (e r s : String) (flags : Nat)
    (l : List String) (f : Func) (hr : isValidRegex r = true) :
    ((process e f).id = f.id ∧ (process e f).metadata.isSome = true
      ∧ MetadataExtends (metaOf f) (metaOf (process e f)))
    ∧ (((listen_to r flags f).1).id = f.id
      ∧ ((listen_to r flags f).1).metadata.isSome = true
      ∧ MetadataExtends (metaOf f) (metaOf (listen_to r flags f).1))
    ∧ (((respond_to r flags f).1).id = f.id
      ∧ ((respond_to r flags f).1).metadata.isSome = true
      ∧ MetadataExtends (metaOf f) (metaOf (respond_to r flags f).1))
    ∧ ((required_settings (SettingsArg.pystr s) f).id = f.id
      ∧ (required_settings (SettingsArg.pystr s) f).metadata.isSome = true
      ∧ MetadataExtends (metaOf f)
          (metaOf (required_settings (SettingsArg.pystr s) f)))
    ∧ ((required_settings (SettingsArg.pylist l) f).id = f.id
      ∧ (required_settings (SettingsArg.pylist l) f).metadata.isSome = true
      ∧ MetadataExtends (metaOf f)
          (metaOf (required_settings (SettingsArg.pylist l) f))) := by
  have hc : reCompile r flags = Except.ok ⟨r, flags⟩ := by
    simp [reCompile, hr]
  refine ⟨⟨rfl, rfl, ?_⟩, ?_, ?_, ⟨rfl, rfl, ?_⟩, ⟨rfl, rfl, ?_⟩⟩
  · exact ⟨⟨[e], rfl⟩, ⟨[], (List.append_nil _).symm⟩,
      ⟨[], (List.append_nil _).symm⟩, ⟨[], (List.append_nil _).symm⟩⟩
  · refine ⟨?_, ?_, ?_⟩ <;>
      simp only [listen_to, listen_to_decorator, hc] <;>
      first
        | rfl
        | exact ⟨⟨[], (List.append_nil _).symm⟩, ⟨[⟨r, flags⟩], rfl⟩,
            ⟨[], (List.append_nil _).symm⟩, ⟨[], (List.append_nil _).symm⟩⟩
  · refine ⟨?_, ?_, ?_⟩ <;>
      simp only [respond_to, respond_to_decorator, hc] <;>
      first
        | rfl
        | exact ⟨⟨[], (List.append_nil _).symm⟩, ⟨[], (List.append_nil _).symm⟩,
            ⟨[⟨r, flags⟩], rfl⟩, ⟨[], (List.append_nil _).symm⟩⟩
  · exact ⟨⟨[], (List.append_nil _).symm⟩, ⟨[], (List.append_nil _).symm⟩,
      ⟨[], (List.append_nil _).symm⟩, ⟨[s], rfl⟩⟩
  · exact ⟨⟨[], (List.append_nil _).symm⟩, ⟨[], (List.append_nil _).symm⟩,
      ⟨[], (List.append_nil _).symm⟩, ⟨l, rfl⟩⟩

/-- C8 witness: the invariant at a concrete decoration. -/
theorem decorators_share_single_metadata_witness :
    MetadataExtends (metaOf ⟨0, none⟩) (metaOf (process "message" ⟨0, none⟩)) :=
  (decorators_share_single_metadata "message" "hello" "C" IGNORECASE
    ["A"] ⟨0, none⟩ rfl).1.2.2

/-- C9: when `listen_to` or `respond_to` is applied with a syntactically
invalid pattern, the failure is not atomic: an error is raised, yet the
target's `metadata` attribute has already been set (a fresh empty
`Metadata` is attached if the function had none, and any existing one is
kept), while the `listen_to` and `respond_to` lists themselves are left
unchanged. -/
theorem invalid_pattern_still_attaches_metadata (r : String) (flags : Nat)
    (f : Func) (h : isValidRegex r = false) :
    ((listen_to r flags f).2.isSome = true
      ∧ ((listen_to r flags f).1).metadata = some (metaOf f)
      ∧ (metaOf (listen_to r flags f).1).plugin_actions.listen_to
          = (metaOf f).plugin_actions.listen_to)
    ∧ ((respond_to r flags f).2.isSome = true
      ∧ ((respond_to r flags f).1).metadata = some (metaOf f)
      ∧ (metaOf (respond_to r flags f).1).plugin_actions.respond_to
          = (metaOf f).plugin_actions.respond_to) := by
  have hc : reCompile r flags = Except.error (PyError.re_error r) := by
    simp [reCompile, h]
  simp [listen_to, respond_to, listen_to_decorator, respond_to_decorator,
    hc, metaOf]

/-- C9 witness: the unbalanced pattern `"("` on an undecorated function
raises, yet attaches an empty `Metadata`. -/
theorem invalid_pattern_still_attaches_metadata_witness :
    (listen_to "(" IGNORECASE ⟨0, none⟩).2.isSome = true
    ∧ ((listen_to "(" IGNORECASE ⟨0, none⟩).1).metadata = some {} :=
  ⟨(invalid_pattern_still_attaches_metadata "(" IGNORECASE ⟨0, none⟩ rfl).1.1,
   (invalid_pattern_still_attaches_metadata "(" IGNORECASE ⟨0, none⟩ rfl).1.2.1⟩

/-- C10: applying `required_settings` with an argument that is neither a
list nor a single string (for example a tuple of strings) raises no error
(the decorator is a total function), still attaches a `Metadata` to the
target if it had none (keeping any existing one), and leaves
`metadata.required_settings` unchanged: the argument is silently
dropped. -/
theorem required_settings_other_type_silently_dropped (t : List String)
    (f : Func) :
    ((required_settings (SettingsArg.pyother t) f).metadata = some (metaOf f))
    ∧ ((required_settings (SettingsArg.pyother t) f).id = f.id)
    ∧ ((metaOf (required_settings (SettingsArg.pyother t) f)).required_settings
        = (metaOf f).required_settings) :=
  ⟨rfl, rfl, rfl⟩

end SlackMachine
